import Mathlib

/-!
# Verification of the oak struct-logging generator

Shallow embedding of the core of the `oak` code generator: the Go-source
extractor (directive detection, struct-tag parsing, type stringification,
package `parser`), the redaction configuration (package `config`) and the
field policy engine (package `types`).  Pure Go string operations are
modelled over `List Char`; Go's `strings.ToLower` is modelled by mapping
`Char.toLower` over the characters, which agrees with Go on the ASCII
inputs used throughout.
-/

namespace Oak

/-! ## Models of the Go `strings` helpers used by the source -/

/-- Models `strings.ToLower` (per-character simple lowercasing). -/
def toLowerStr (s : String) : String :=
  String.mk (s.toList.map Char.toLower)

/-- Models `strings.HasPrefix`. -/
def hasPrefixStr (s pre : String) : Bool :=
  pre.toList.isPrefixOf s.toList

/-- Models `strings.HasSuffix`. -/
def hasSuffixStr (s suf : String) : Bool :=
  suf.toList.isSuffixOf s.toList

/-- Models `strings.TrimSpace`: drop whitespace from both ends. -/
def trimSpaceStr (s : String) : String :=
  String.mk ((((s.toList.dropWhile Char.isWhitespace).reverse).dropWhile Char.isWhitespace).reverse)

/-- Models `strings.TrimPrefix(s, "*")`: remove one leading star if present. -/
def trimPrefixStar (s : String) : String :=
  if hasPrefixStr s "*" then String.mk (s.toList.drop 1) else s

/-- Models `strings.Split(s, " ")` at the character-list level. -/
def splitOnSpaceChar : List Char → List (List Char)
  | [] => [[]]
  | c :: cs =>
    match splitOnSpaceChar cs with
    | [] => [[]]
    | t :: ts => if c = ' ' then [] :: t :: ts else (c :: t) :: ts

/-- Models `strings.Index(s, c)` for a one-character needle:
index of the first occurrence, `none` when absent (Go returns -1). -/
def firstIdxOf (c : Char) : List Char → Option Nat
  | [] => none
  | x :: xs => if x = c then some 0 else (firstIdxOf c xs).map (· + 1)

/-- The backtick character (written numerically). -/
def backtickChar : Char := Char.ofNat 96

/-! ## Package `config` (src/unnamed/part_002) -/

/-- `config.Config`, the oak.yaml configuration. -/
structure Config where
  packages : List String := []
  redactKeys : List String := []
  redactMessage : String := ""
deriving DecidableEq, Repr

/-- `config.DefaultConfig`. -/
def DefaultConfig : Config :=
  { packages := ["."], redactKeys := [], redactMessage := "[REDACTED]" }

/-- `Config.ShouldRedactField`: lowercase the queried field name once and
compare it for equality against each stored redact key. -/
def Config.ShouldRedactField (c : Config) (fieldName : String) : Bool :=
  c.redactKeys.any (fun redactKey => toLowerStr fieldName == redactKey)

/-- The pure normalization part of `Config.validate`: redact keys are
lowercased in place and an empty redact message is replaced by the default.
(The remaining part of the Go function only checks that configured package
paths exist on disk, which is I/O and does not change the configuration.) -/
def Config.validate (c : Config) : Config :=
  { c with
    redactKeys := c.redactKeys.map toLowerStr
    redactMessage := if c.redactMessage = "" then "[REDACTED]" else c.redactMessage }

/-! ## Package `parser` (src/internal/parser/parser.go) -/

/-- `parser.FieldInfo`. -/
structure FieldInfo where
  name : String
  type : String
  tag : String := ""
  logTag : String := ""
  isPointer : Bool := false
deriving DecidableEq, Repr

/-- `parser.StructInfo`. -/
structure StructInfo where
  name : String := ""
  packageName : String := ""
  fields : List FieldInfo := []
  filePath : String := ""
deriving DecidableEq, Repr

/-- `parser.ParseResult`. -/
structure ParseResult where
  structs : List StructInfo := []
  errors : List String := []
deriving DecidableEq, Repr

/-- The `ast.Expr` shapes inspected by `typeToString` / `isPointerType`.
`basicLit` is a literal node (e.g. the length of a fixed-size array) and
`other` stands for every remaining Go AST expression kind (function types,
channel types, generic instantiations, ...); both fall to the `default`
arm of the Go switch. -/
inductive GoTypeExpr where
  | ident (name : String)
  | star (x : GoTypeExpr)
  | array (len : Option GoTypeExpr) (elt : GoTypeExpr)
  | map (key value : GoTypeExpr)
  | selector (x : GoTypeExpr) (sel : String)
  | interfaceT
  | basicLit (value : String)
  | other

/-- `Parser.typeToString`: render an AST type expression as a string. -/
def typeToString : GoTypeExpr → String
  | .ident name => name
  | .star x => "*" ++ typeToString x
  | .array none elt => "[]" ++ typeToString elt
  | .array (some len) elt => "[" ++ typeToString len ++ "]" ++ typeToString elt
  | .map key value => "map[" ++ typeToString key ++ "]" ++ typeToString value
  | .selector x sel => typeToString x ++ "." ++ sel
  | .interfaceT => "interface\x7b\x7d"
  | .basicLit _ => "unknown"
  | .other => "unknown"

/-- `Parser.isPointerType`. -/
def isPointerType : GoTypeExpr → Bool
  | .star _ => true
  | _ => false

/-- One iteration of the loop body of `Parser.extractLogTag`: for a single
space-separated part, `some value` when the part yields a log-tag value
(causing the Go loop to return), `none` when the loop continues. -/
def logTokenValue (part : List Char) : Option (List Char) :=
  if "log:".toList.isPrefixOf part then
    match firstIdxOf ':' part with
    | some colonIndex =>
      if colonIndex + 1 < part.length then
        let value := part.drop (colonIndex + 1)
        if 2 ≤ value.length ∧ value.head? = some '"' ∧ value.getLast? = some '"' then
          some ((value.drop 1).dropLast)
        else none
      else none
    | none => none
  else none

/-- The scan over the space-separated parts in `Parser.extractLogTag`,
returning the first successfully extracted value ("" when none). -/
def scanLogParts : List (List Char) → List Char
  | [] => []
  | p :: ps =>
    match logTokenValue p with
    | some v => v
    | none => scanLogParts ps

/-- The backtick-stripping step of `Parser.extractLogTag`. -/
def stripBackticksChars (s : List Char) : List Char :=
  if 2 ≤ s.length ∧ s.head? = some backtickChar ∧ s.getLast? = some backtickChar then
    (s.drop 1).dropLast
  else s

/-- `Parser.extractLogTag`: strip surrounding backticks, split on spaces,
and return the quoted value of the first part carrying the `log:` key. -/
def extractLogTag (tagValue : String) : String :=
  String.mk (scanLogParts (splitOnSpaceChar (stripBackticksChars tagValue.toList)))

/-- A parsed Go source file, as far as the oak parser inspects it:
the texts of all attached comments (delimiters included, comment groups
flattened) and the structs that `extractStructs` would return for it. -/
structure GoFile where
  comments : List String := []
  structs : List StructInfo := []
deriving DecidableEq, Repr

/-- The per-comment test inside `Parser.hasOakDirective`: trim, strip the
comment delimiters, trim again, and check for the `go:generate oak` prefix. -/
def commentHasOakDirective (commentText : String) : Bool :=
  let text := trimSpaceStr commentText
  let text2 :=
    if hasPrefixStr text "//" then trimSpaceStr (String.mk (text.toList.drop 2))
    else if hasPrefixStr text "/*" && hasSuffixStr text "*/" then
      trimSpaceStr (String.mk (((text.toList.drop 2).dropLast).dropLast))
    else text
  hasPrefixStr text2 "go:generate oak"

/-- `Parser.hasOakDirective`: some attached comment carries the directive. -/
def hasOakDirective (file : GoFile) : Bool :=
  file.comments.any commentHasOakDirective

/-- `Parser.ParseFile` after the syntax-parse step: `none` stands for a
file that failed Go parsing (the error path); for a successfully parsed
file, return its structs when the oak directive is present and an empty
result otherwise — never an error. -/
def ParseFile (parsed : Option GoFile) : Except String ParseResult :=
  match parsed with
  | none => Except.error "failed to parse file"
  | some file =>
    if hasOakDirective file then Except.ok { structs := file.structs }
    else Except.ok {}

/-! ## Package `types` (src/unnamed/part_000) -/

/-- `types.SlogFunction` is a string type in the source. -/
abbrev SlogFunction := String

/-- `types.SlogInt64`. -/
def SlogInt64 : SlogFunction := "slog.Int64"
/-- `types.SlogString`. -/
def SlogString : SlogFunction := "slog.String"
/-- `types.SlogBool`. -/
def SlogBool : SlogFunction := "slog.Bool"
/-- `types.SlogFloat64`. -/
def SlogFloat64 : SlogFunction := "slog.Float64"
/-- `types.SlogAny`. -/
def SlogAny : SlogFunction := "slog.Any"

/-- `types.FieldAction` (iota constants `ActionLog`, `ActionRedact`, `ActionSkip`). -/
inductive FieldAction where
  | ActionLog
  | ActionRedact
  | ActionSkip
deriving DecidableEq, Repr

/-- `types.FieldAnalysis`.  The defaults are Go's zero values, as produced
by the literal `FieldAnalysis{Field: field}` in `AnalyzeField`. -/
structure FieldAnalysis where
  field : FieldInfo
  action : FieldAction := .ActionLog
  slogFunc : SlogFunction := ""
  logValue : String := ""
deriving DecidableEq, Repr

/-- `types.TypeAnalyzer`: a wrapper around the configuration. -/
structure TypeAnalyzer where
  config : Config
deriving DecidableEq, Repr

/-- `TypeAnalyzer.getSlogFunction`: strip the `*` prefix when the field is
a pointer, then classify the base type by exact string match. -/
def TypeAnalyzer.getSlogFunction (ta : TypeAnalyzer) (field : FieldInfo) : SlogFunction :=
  let fieldType := if field.isPointer then trimPrefixStar field.type else field.type
  if fieldType = "int" ∨ fieldType = "int8" ∨ fieldType = "int16" ∨
      fieldType = "int32" ∨ fieldType = "int64" then SlogInt64
  else if fieldType = "uint" ∨ fieldType = "uint8" ∨ fieldType = "uint16" ∨
      fieldType = "uint32" ∨ fieldType = "uint64" then SlogInt64
  else if fieldType = "string" then SlogString
  else if fieldType = "bool" then SlogBool
  else if fieldType = "float32" ∨ fieldType = "float64" then SlogFloat64
  else SlogAny

/-- `TypeAnalyzer.shouldRedactField`. -/
def TypeAnalyzer.shouldRedactField (ta : TypeAnalyzer) (field : FieldInfo) : Bool :=
  if field.logTag = "-" then false
  else if field.logTag = "redact" then true
  else ta.config.ShouldRedactField field.name

/-- `TypeAnalyzer.AnalyzeField`: skip wins, then redact, then normal log. -/
def TypeAnalyzer.AnalyzeField (ta : TypeAnalyzer) (field : FieldInfo) : FieldAnalysis :=
  if field.logTag = "-" then
    { field := field, action := .ActionSkip }
  else if ta.shouldRedactField field then
    { field := field, action := .ActionRedact, slogFunc := SlogString,
      logValue := ta.config.redactMessage }
  else
    { field := field, action := .ActionLog, slogFunc := ta.getSlogFunction field }

/-- `TypeAnalyzer.AnalyzeStruct`: analyze every field in order. -/
def TypeAnalyzer.AnalyzeStruct (ta : TypeAnalyzer) (structInfo : StructInfo) : List FieldAnalysis :=
  structInfo.fields.map ta.AnalyzeField

/-- `TypeAnalyzer.getFieldAccessor`: `receiver.Field`. -/
def TypeAnalyzer.getFieldAccessor (ta : TypeAnalyzer) (field : FieldInfo)
    (receiverName : String) : String :=
  receiverName ++ "." ++ field.name

/-- `TypeAnalyzer.generateNormalLogStatement`.  The strings are exactly the
`fmt.Sprintf` results of the source (Go braces appear as `\x7b`/`\x7d`);
parentheses only group the format text around the interpolated arguments. -/
def TypeAnalyzer.generateNormalLogStatement (ta : TypeAnalyzer) (analysis : FieldAnalysis)
    (receiverName : String) : String :=
  let fieldName := analysis.field.name
  let fieldAccessor := ta.getFieldAccessor analysis.field receiverName
  if analysis.slogFunc = SlogInt64 then
    if analysis.field.isPointer then
      "func() slog.Attr \x7b\n\t\t\t\t\t" ++ ("if " ++ fieldAccessor ++ " == nil") ++
        (" \x7b\n\t\t\t\t\t\treturn " ++ ("slog.String(\"" ++ fieldName ++ "\", \"null\")") ++
          ("\n\t\t\t\t\t\x7d\n\t\t\t\t\treturn slog.Int64(\"" ++ fieldName ++ "\", int64(" ++
            ("*" ++ fieldAccessor) ++ "))\n\t\t\t\t\x7d()"))
    else if analysis.field.type ≠ "int64" then
      analysis.slogFunc ++ "(\"" ++ fieldName ++ "\", int64(" ++ fieldAccessor ++ "))"
    else
      analysis.slogFunc ++ "(\"" ++ fieldName ++ "\", " ++ fieldAccessor ++ ")"
  else if analysis.slogFunc = SlogFloat64 then
    if analysis.field.isPointer then
      "func() slog.Attr \x7b\n\t\t\t\t\t" ++ ("if " ++ fieldAccessor ++ " == nil") ++
        (" \x7b\n\t\t\t\t\t\treturn " ++ ("slog.String(\"" ++ fieldName ++ "\", \"null\")") ++
          ("\n\t\t\t\t\t\x7d\n\t\t\t\t\treturn slog.Float64(\"" ++ fieldName ++ "\", float64(" ++
            ("*" ++ fieldAccessor) ++ "))\n\t\t\t\t\x7d()"))
    else if analysis.field.type ≠ "float64" then
      analysis.slogFunc ++ "(\"" ++ fieldName ++ "\", float64(" ++ fieldAccessor ++ "))"
    else
      analysis.slogFunc ++ "(\"" ++ fieldName ++ "\", " ++ fieldAccessor ++ ")"
  else if analysis.slogFunc = SlogString ∨ analysis.slogFunc = SlogBool then
    if analysis.field.isPointer then
      "func() slog.Attr \x7b\n\t\t\t\t\t" ++ ("if " ++ fieldAccessor ++ " == nil") ++
        (" \x7b\n\t\t\t\t\t\treturn " ++ ("slog.String(\"" ++ fieldName ++ "\", \"null\")") ++
          ("\n\t\t\t\t\t\x7d\n\t\t\t\t\treturn " ++ analysis.slogFunc ++ "(\"" ++ fieldName ++ "\", " ++
            ("*" ++ fieldAccessor) ++ ")\n\t\t\t\t\x7d()"))
    else
      analysis.slogFunc ++ "(\"" ++ fieldName ++ "\", " ++ fieldAccessor ++ ")"
  else if analysis.slogFunc = SlogAny then
    if analysis.field.isPointer then
      "func() slog.Attr \x7b\n\t\t\t\t\t" ++ ("if " ++ fieldAccessor ++ " == nil") ++
        (" \x7b\n\t\t\t\t\t\treturn " ++ ("slog.String(\"" ++ fieldName ++ "\", \"null\")") ++
          ("\n\t\t\t\t\t\x7d\n\t\t\t\t\treturn " ++ analysis.slogFunc ++ "(\"" ++ fieldName ++ "\", " ++
            ("*" ++ fieldAccessor) ++ ")\n\t\t\t\t\x7d()"))
    else
      analysis.slogFunc ++ "(\"" ++ fieldName ++ "\", " ++ fieldAccessor ++ ")"
  else
    SlogAny ++ "(\"" ++ fieldName ++ "\", " ++ fieldAccessor ++ ")"

/-- `TypeAnalyzer.GenerateLogStatement`. -/
def TypeAnalyzer.GenerateLogStatement (ta : TypeAnalyzer) (analysis : FieldAnalysis)
    (receiverName : String) : String :=
  match analysis.action with
  | .ActionSkip => ""
  | .ActionRedact =>
    analysis.slogFunc ++ "(\"" ++ analysis.field.name ++ "\", \"" ++ analysis.logValue ++ "\")"
  | .ActionLog => ta.generateNormalLogStatement analysis receiverName

/-- `TypeAnalyzer.HasLoggableFields`: some field is not skipped. -/
def TypeAnalyzer.HasLoggableFields (ta : TypeAnalyzer) (structInfo : StructInfo) : Bool :=
  (ta.AnalyzeStruct structInfo).any (fun analysis => analysis.action != .ActionSkip)

/-! ## Sample configurations and analyzers used in witnesses -/

/-- A configuration whose single redact key is the lowercase `password`. -/
def cfgPw : Config := { redactKeys := ["password"], redactMessage := "[REDACTED]" }

/-- The analyzer for `cfgPw`. -/
def taPw : TypeAnalyzer := ⟨cfgPw⟩

/-- A configuration whose single redact key `Password` has an uppercase letter
(as a raw `Config` value, i.e. not normalized by the loader). -/
def cfgUpper : Config := { redactKeys := ["Password"], redactMessage := "[REDACTED]" }

/-- A configuration mixing an uppercase-containing key with a lowercase key. -/
def cfgMixed : Config := { redactKeys := ["Password", "secret"], redactMessage := "[REDACTED]" }

/-- A skip-annotated string field whose name matches the `password` trigger. -/
def fieldPwSkip : FieldInfo :=
  { name := "Password", type := "string", tag := "`log:\"-\"`", logTag := "-" }

/-! ## Claim C1 -/

/-- C1: a field whose log directive is exactly `-` is always skipped by
`AnalyzeField`, never redacted, for every analyzer configuration. -/
theorem analyzeField_skip_directive_wins (ta : TypeAnalyzer) (field : FieldInfo)
    (h : field.logTag = "-") :
    (ta.AnalyzeField field).action = .ActionSkip ∧
      (ta.AnalyzeField field).action ≠ .ActionRedact := by
  simp [TypeAnalyzer.AnalyzeField, h]

/-- C1 witness: the field `Password` whose name matches the configured trigger
`password` is still skipped when it carries the `-` directive. -/
theorem analyzeField_skip_directive_wins_witness :
    (taPw.AnalyzeField fieldPwSkip).action = .ActionSkip ∧
      (taPw.AnalyzeField fieldPwSkip).action ≠ .ActionRedact :=
  analyzeField_skip_directive_wins taPw fieldPwSkip (by decide)

/-! ## Claim C2 (corrected) -/

/-- C2 counterexample: against the raw configuration whose stored trigger is
`Password` (uppercase), the field named `Password` case-insensitively equals
that trigger, is not skip-annotated, and yet resolves to `ActionLog`, not
`ActionRedact`: the code lowercases only the queried name, not the key. -/
theorem analyzeField_uppercase_trigger_not_redacted :
    "Password" ∈ cfgUpper.redactKeys ∧
      toLowerStr "Password" = toLowerStr "Password" ∧
      ({ name := "Password", type := "string" } : FieldInfo).logTag ≠ "-" ∧
      (TypeAnalyzer.AnalyzeField ⟨cfgUpper⟩ { name := "Password", type := "string" }).action
        = .ActionLog := by
  refine ⟨by decide, rfl, by decide, by decide⟩

/-- C2 (amended): for every field not annotated with the skip directive,
if the lowercased field name equals one of the stored trigger keys (the
loader normalizes stored keys to lowercase, so case-insensitive matching is
obtained for loader-produced configurations), `AnalyzeField` returns
`ActionRedact`. -/
theorem analyzeField_trigger_match_redacts (ta : TypeAnalyzer) (field : FieldInfo)
    (hskip : field.logTag ≠ "-") (hmem : toLowerStr field.name ∈ ta.config.redactKeys) :
    (ta.AnalyzeField field).action = .ActionRedact := by
  have hsrf : ta.config.ShouldRedactField field.name = true := by
    simp only [Config.ShouldRedactField, List.any_eq_true]
    exact ⟨toLowerStr field.name, hmem, by simp⟩
  unfold TypeAnalyzer.AnalyzeField TypeAnalyzer.shouldRedactField
  by_cases hr : field.logTag = "redact" <;> simp [hskip, hr, hsrf]

/-- C2 witness: the names `Password`, `PASSWORD` and `password` all resolve
to `ActionRedact` against the configured lowercase trigger `password`. -/
theorem analyzeField_trigger_match_redacts_witness :
    (taPw.AnalyzeField { name := "Password", type := "string" }).action = .ActionRedact ∧
      (taPw.AnalyzeField { name := "PASSWORD", type := "string" }).action = .ActionRedact ∧
      (taPw.AnalyzeField { name := "password", type := "string" }).action = .ActionRedact :=
  ⟨analyzeField_trigger_match_redacts taPw _ (by decide) (by decide),
    analyzeField_trigger_match_redacts taPw _ (by decide) (by decide),
    analyzeField_trigger_match_redacts taPw _ (by decide) (by decide)⟩

/-! ## Claim C3 -/

/-- C3: every redacted field (explicit `redact` directive or a trigger-name
match, and not skip-annotated) is analyzed with the string strategy and the
configured substitute message as log value, whatever the field's type, and
its synthesized statement is the single fixed-shape string emission of the
field name and that message. -/
theorem analyzeField_redact_forces_string_strategy (ta : TypeAnalyzer) (field : FieldInfo)
    (receiverName : String) (hskip : field.logTag ≠ "-")
    (hred : field.logTag = "redact" ∨ ta.config.ShouldRedactField field.name = true) :
    (ta.AnalyzeField field).action = .ActionRedact ∧
      (ta.AnalyzeField field).slogFunc = SlogString ∧
      (ta.AnalyzeField field).logValue = ta.config.redactMessage ∧
      ta.GenerateLogStatement (ta.AnalyzeField field) receiverName =
        "slog.String(\"" ++ field.name ++ "\", \"" ++ ta.config.redactMessage ++ "\")" := by
  have hsrf : ta.shouldRedactField field = true := by
    unfold TypeAnalyzer.shouldRedactField
    rcases hred with h | h
    · simp [hskip, h]
    · by_cases hr : field.logTag = "redact" <;> simp [hskip, hr, h]
  have hfa : ta.AnalyzeField field =
      { field := field, action := .ActionRedact, slogFunc := SlogString,
        logValue := ta.config.redactMessage } := by
    unfold TypeAnalyzer.AnalyzeField
    simp [hskip, hsrf]
  refine ⟨by rw [hfa], by rw [hfa], by rw [hfa], ?_⟩
  rw [hfa]
  show SlogString ++ "(\"" ++ field.name ++ "\", \"" ++ ta.config.redactMessage ++ "\")" = _
  simp only [String.append_assoc]
  rfl

/-- C3 witness: a redact-annotated `bool` field (a non-string type) produces
the string-strategy statement with the configured substitute message. -/
theorem analyzeField_redact_forces_string_strategy_witness :
    (taPw.AnalyzeField { name := "Active", type := "bool", logTag := "redact" }).action
        = .ActionRedact ∧
      (taPw.AnalyzeField { name := "Active", type := "bool", logTag := "redact" }).slogFunc
        = SlogString ∧
      (taPw.AnalyzeField { name := "Active", type := "bool", logTag := "redact" }).logValue
        = taPw.config.redactMessage ∧
      taPw.GenerateLogStatement
          (taPw.AnalyzeField { name := "Active", type := "bool", logTag := "redact" }) "u" =
        "slog.String(\"" ++ "Active" ++ "\", \"" ++ taPw.config.redactMessage ++ "\")" :=
  analyzeField_redact_forces_string_strategy taPw _ "u" (by decide) (Or.inl (by decide))

/-! ## Claim C5 (corrected) -/

/-- C5 counterexample: an interface type does not normalize to `unknown` but
to the dedicated token `interface{}` (a seventh handled shape), and a
fixed-length array with a literal length does not keep the length in its
signature: the length expression is itself normalized, and a literal falls
to the default arm, giving `[unknown]int` for `[3]int`. -/
theorem typeToString_interface_not_unknown :
    typeToString .interfaceT = "interface\x7b\x7d" ∧
      typeToString .interfaceT ≠ "unknown" ∧
      typeToString (.array (some (.basicLit "3")) (.ident "int")) = "[unknown]int" :=
  ⟨rfl, by decide, rfl⟩

/-- C5 (amended): type normalization is total and maps each handled shape
structurally — identifier to itself, reference, sequence, fixed-length
array (the length expression being itself normalized, so literal lengths
render as `unknown`), mapping, qualified reference — while interface types
render as `interface{}` and every remaining node kind yields the literal
token `unknown`, never failing. -/
theorem typeToString_normalization :
    (∀ n, typeToString (.ident n) = n) ∧
      (∀ x, typeToString (.star x) = "*" ++ typeToString x) ∧
      (∀ e, typeToString (.array none e) = "[]" ++ typeToString e) ∧
      (∀ l e, typeToString (.array (some l) e) =
        "[" ++ typeToString l ++ "]" ++ typeToString e) ∧
      (∀ k v, typeToString (.map k v) = "map[" ++ typeToString k ++ "]" ++ typeToString v) ∧
      (∀ x s, typeToString (.selector x s) = typeToString x ++ "." ++ s) ∧
      typeToString .interfaceT = "interface\x7b\x7d" ∧
      (∀ v, typeToString (.basicLit v) = "unknown") ∧
      typeToString .other = "unknown" :=
  ⟨fun _ => rfl, fun _ => rfl, fun _ => rfl, fun _ _ => rfl, fun _ _ => rfl,
    fun _ _ => rfl, rfl, fun _ => rfl, rfl⟩

/-! ## Claim C6 -/

/-- The emission-strategy table exactly as the specification states it,
keyed on the stripped base type (for comparison with `getSlogFunction`). -/
def specEmissionStrategy (baseType : String) : SlogFunction :=
  if baseType ∈ ["int", "int8", "int16", "int32", "int64",
      "uint", "uint8", "uint16", "uint32", "uint64"] then SlogInt64
  else if baseType = "string" then SlogString
  else if baseType = "bool" then SlogBool
  else if baseType ∈ ["float32", "float64"] then SlogFloat64
  else SlogAny

/-- C6: emission-strategy selection is total and agrees everywhere with the
spec's table applied to the base type obtained by stripping one leading `*`
from a pointer field's type: all integer widths map to the int64 strategy,
`string`/`bool`/floats to their strategies, and everything else to the
generic strategy — a strategy is always produced. -/
theorem getSlogFunction_matches_spec_table (ta : TypeAnalyzer) (field : FieldInfo) :
    ta.getSlogFunction field =
      specEmissionStrategy (if field.isPointer then trimPrefixStar field.type else field.type) := by
  unfold TypeAnalyzer.getSlogFunction specEmissionStrategy
  generalize (if field.isPointer then trimPrefixStar field.type else field.type) = s
  split_ifs <;> simp_all <;> tauto

/-! ## Claim C9 -/

/-- A skip-annotated `Notes` field. -/
def fieldNotesSkip : FieldInfo := { name := "Notes", type := "string", logTag := "-" }

/-- A struct whose every field carries the `-` directive. -/
def structAllSkip : StructInfo := { name := "S", fields := [fieldPwSkip, fieldNotesSkip] }

/-- C9: `HasLoggableFields` is true exactly when some field analyzes to an
action other than skip; a record whose every field carries the `-`
directive yields false; and the synthesized statement of a skipped field is
the empty string. -/
theorem hasLoggableFields_iff (ta : TypeAnalyzer) (structInfo : StructInfo) :
    (ta.HasLoggableFields structInfo = true ↔
      ∃ f ∈ structInfo.fields, (ta.AnalyzeField f).action ≠ .ActionSkip) ∧
      ((∀ f ∈ structInfo.fields, f.logTag = "-") → ta.HasLoggableFields structInfo = false) ∧
      (∀ (analysis : FieldAnalysis) (receiverName : String),
        analysis.action = .ActionSkip → ta.GenerateLogStatement analysis receiverName = "") := by
  have hiff : ta.HasLoggableFields structInfo = true ↔
      ∃ f ∈ structInfo.fields, (ta.AnalyzeField f).action ≠ .ActionSkip := by
    simp [TypeAnalyzer.HasLoggableFields, TypeAnalyzer.AnalyzeStruct, List.any_map,
      List.any_eq_true, Function.comp, bne_iff_ne]
  refine ⟨hiff, ?_, ?_⟩
  · intro h
    rw [Bool.eq_false_iff]
    intro hc
    obtain ⟨f, hf, hact⟩ := hiff.mp hc
    exact hact (by simp [TypeAnalyzer.AnalyzeField, h f hf])
  · intro analysis receiverName ha
    simp [TypeAnalyzer.GenerateLogStatement, ha]

/-- C9 witness: the all-skipped struct has no loggable fields, and the
skipped `Password` field synthesizes the empty statement. -/
theorem hasLoggableFields_iff_witness :
    taPw.HasLoggableFields structAllSkip = false ∧
      taPw.GenerateLogStatement (taPw.AnalyzeField fieldPwSkip) "u" = "" :=
  ⟨(hasLoggableFields_iff taPw structAllSkip).2.1 (by decide),
    (hasLoggableFields_iff taPw structAllSkip).2.2 (taPw.AnalyzeField fieldPwSkip) "u" (by decide)⟩

/-! ## Claim C7 -/

/-- A parsed file with comments but no oak directive. -/
def goFileNoDirective : GoFile :=
  { comments := ["// a regular comment", "//go:generate mockgen", "/* block comment */"],
    structs := [structAllSkip] }

/-- C7: a syntactically valid source file none of whose comments carries the
`go:generate oak` directive (delimiter-stripped, trimmed, exact-prefix test)
parses to an empty struct list with no error; and trailing arguments after
the directive token do not prevent a match. -/
theorem parseFile_no_directive_ok_empty (file : GoFile)
    (h : ∀ c ∈ file.comments, commentHasOakDirective c = false) :
    ParseFile (some file) = .ok { structs := [], errors := [] } ∧
      commentHasOakDirective "//go:generate oak --verbose" = true := by
  constructor
  · have hd : hasOakDirective file = false := by
      unfold hasOakDirective
      rw [List.any_eq_false]
      intro c hc
      simp [h c hc]
    simp [ParseFile, hd]
  · decide

/-- C7 witness: a concrete file with three non-directive comments and one
struct yields the empty result and no error. -/
theorem parseFile_no_directive_ok_empty_witness :
    ParseFile (some goFileNoDirective) = .ok { structs := [], errors := [] } ∧
      commentHasOakDirective "//go:generate oak --verbose" = true :=
  parseFile_no_directive_ok_empty goFileNoDirective (by decide)

/-! ## Claim C10 (corrected) -/

/-- Whether a string contains an ASCII uppercase letter. -/
def hasUpperAscii (s : String) : Bool :=
  s.toList.any fun ch => decide (65 ≤ ch.toNat ∧ ch.toNat ≤ 90)

theorem toNat_toLower_not_upper (c : Char) :
    ¬(65 ≤ (Char.toLower c).toNat ∧ (Char.toLower c).toNat ≤ 90) := by
  unfold Char.toLower
  by_cases h : 65 ≤ c.toNat ∧ c.toNat ≤ 90
  · rw [if_pos ⟨h.1, h.2⟩]
    have hv : (c.toNat + 32).isValidChar := Or.inl (by omega)
    have he : (Char.ofNat (c.toNat + 32)).toNat = c.toNat + 32 := by
      unfold Char.ofNat
      rw [dif_pos hv]
      rfl
    rw [he]
    omega
  · rw [if_neg h]
    exact h

theorem toLowerStr_no_upper (s : String) : hasUpperAscii (toLowerStr s) = false := by
  unfold hasUpperAscii toLowerStr
  rw [List.any_eq_false]
  intro c hc
  have hc2 : c ∈ s.toList.map Char.toLower := hc
  obtain ⟨c0, _, rfl⟩ := List.mem_map.mp hc2
  simpa using toNat_toLower_not_upper c0

theorem toLowerStr_ne_of_hasUpper (k : String) (hk : hasUpperAscii k = true)
    (fieldName : String) : toLowerStr fieldName ≠ k := by
  intro he
  rw [← he, toLowerStr_no_upper] at hk
  exact absurd hk (by simp)

/-- C10 counterexample: the claim as stated is false for a configuration
mixing an uppercase-containing key with a lowercase key — `cfgMixed`
contains the key `Password` with an uppercase letter, yet
`ShouldRedactField` still returns true for the field name `secret`. -/
theorem shouldRedactField_mixed_config_cex :
    "Password" ∈ cfgMixed.redactKeys ∧ hasUpperAscii "Password" = true ∧
      cfgMixed.ShouldRedactField "secret" = true := by
  decide

/-- C10 (amended): trigger matching lowercases only the queried field name,
not the stored keys: a stored key containing an uppercase ASCII letter is
matched by no field name (including the key itself), so a configuration
all of whose keys contain an uppercase letter never redacts anything; and
for the loader-normalized configuration (`validate` lowercases the stored
keys) matching is genuinely case-insensitive. -/
theorem shouldRedactField_lowercases_only_query (c : Config) :
    ((∀ k ∈ c.redactKeys, hasUpperAscii k = true) →
      ∀ fieldName, c.ShouldRedactField fieldName = false) ∧
      (∀ k ∈ c.redactKeys, hasUpperAscii k = true →
        ∀ fieldName, toLowerStr fieldName ≠ k) ∧
      (∀ fieldName, (c.validate).ShouldRedactField fieldName = true ↔
        ∃ k ∈ c.redactKeys, toLowerStr fieldName = toLowerStr k) := by
  refine ⟨?_, fun k _ hk fieldName => toLowerStr_ne_of_hasUpper k hk fieldName, ?_⟩
  · intro h fieldName
    unfold Config.ShouldRedactField
    rw [List.any_eq_false]
    intro k hkmem
    simp [toLowerStr_ne_of_hasUpper k (h k hkmem) fieldName]
  · intro fieldName
    unfold Config.validate Config.ShouldRedactField
    simp only [List.any_eq_true, List.mem_map, beq_iff_eq]
    constructor
    · rintro ⟨x, ⟨a, ha, rfl⟩, hx⟩
      exact ⟨a, ha, hx⟩
    · rintro ⟨k, hk, he⟩
      exact ⟨toLowerStr k, ⟨k, hk, rfl⟩, he⟩

/-- C10 witness: against the raw key `Password`, no name matches — not even
`Password` itself — while after loader normalization `PASSWORD` matches. -/
theorem shouldRedactField_lowercases_only_query_witness :
    cfgUpper.ShouldRedactField "Password" = false ∧
      (cfgUpper.validate).ShouldRedactField "PASSWORD" = true :=
  ⟨(shouldRedactField_lowercases_only_query cfgUpper).1 (by decide) "Password",
    ((shouldRedactField_lowercases_only_query cfgUpper).2.2 "PASSWORD").mpr
      ⟨"Password", by decide, by decide⟩⟩

/-! ## Claim C4 (corrected) -/

/-- `sub` occurs as a contiguous substring of `s`. -/
def containsSubstr (s sub : String) : Prop := sub.toList <:+: s.toList

instance (s sub : String) : Decidable (containsSubstr s sub) :=
  inferInstanceAs (Decidable (sub.toList <:+: s.toList))

theorem containsSubstr_parts (pre t post : String) : containsSubstr (pre ++ t ++ post) t :=
  ⟨pre.toList, post.toList, rfl⟩

theorem containsSubstr_append_left (pre s t : String) (h : containsSubstr s t) :
    containsSubstr (pre ++ s) t := by
  obtain ⟨a, b, hab⟩ := h
  refine ⟨pre.toList ++ a, b, ?_⟩
  show pre.toList ++ a ++ t.toList ++ b = pre.toList ++ s.toList
  rw [← hab]
  simp [List.append_assoc]

/-- The three substring facts shared by every pointer branch of
`generateNormalLogStatement`, stated on the exact shape of those branches. -/
theorem containsSubstr_ptr_shape (lit1 x1 X Y t1 t2 t3 : String) :
    containsSubstr (lit1 ++ t1 ++ (x1 ++ t2 ++ (X ++ t3 ++ Y))) t1 ∧
      containsSubstr (lit1 ++ t1 ++ (x1 ++ t2 ++ (X ++ t3 ++ Y))) t2 ∧
      containsSubstr (lit1 ++ t1 ++ (x1 ++ t2 ++ (X ++ t3 ++ Y))) t3 := by
  refine ⟨containsSubstr_parts lit1 t1 _, ?_, ?_⟩
  · exact containsSubstr_append_left (lit1 ++ t1) _ _ (containsSubstr_parts x1 t2 _)
  · exact containsSubstr_append_left (lit1 ++ t1) _ _
      (containsSubstr_append_left (x1 ++ t2) _ _ (containsSubstr_parts X t3 Y))

/-- If `AnalyzeField` returned the log action, the analysis is the normal-log
record with the strategy chosen by `getSlogFunction`. -/
theorem analyzeField_log_eq (ta : TypeAnalyzer) (field : FieldInfo)
    (h : (ta.AnalyzeField field).action = .ActionLog) :
    ta.AnalyzeField field =
      { field := field, action := .ActionLog, slogFunc := ta.getSlogFunction field } := by
  unfold TypeAnalyzer.AnalyzeField at h ⊢
  split_ifs at h ⊢ <;> simp_all

/-- `getSlogFunction` always returns one of the five strategy constants. -/
theorem getSlogFunction_mem (ta : TypeAnalyzer) (field : FieldInfo) :
    ta.getSlogFunction field = SlogInt64 ∨ ta.getSlogFunction field = SlogString ∨
      ta.getSlogFunction field = SlogBool ∨ ta.getSlogFunction field = SlogFloat64 ∨
      ta.getSlogFunction field = SlogAny := by
  unfold TypeAnalyzer.getSlogFunction
  simp only []
  split_ifs <;> tauto

/-- A pointer field carrying the explicit `redact` directive. -/
def fieldTokenRedactPtr : FieldInfo :=
  { name := "Token", type := "*string", tag := "`log:\"redact\"`", logTag := "redact",
    isPointer := true }

/-- C4 counterexample: for a nullable (pointer) field whose action is
Redact, the synthesized emission is the plain fixed string statement — it
contains neither the `null` sentinel nor any dereference, refuting the
claim for the Redact half. -/
theorem generateLogStatement_redact_pointer_no_nil_branch :
    fieldTokenRedactPtr.isPointer = true ∧
      (taPw.AnalyzeField fieldTokenRedactPtr).action = .ActionRedact ∧
      taPw.GenerateLogStatement (taPw.AnalyzeField fieldTokenRedactPtr) "u" =
        "slog.String(\"Token\", \"[REDACTED]\")" ∧
      ¬ containsSubstr (taPw.GenerateLogStatement (taPw.AnalyzeField fieldTokenRedactPtr) "u")
        "null" ∧
      ¬ containsSubstr (taPw.GenerateLogStatement (taPw.AnalyzeField fieldTokenRedactPtr) "u")
        "*" := by
  refine ⟨rfl, by decide, by decide, by decide, by decide⟩

/-- C4 (amended): for every nullable-reference (pointer) field whose action
is Log, the synthesized emission contains the nil check, the `null`
sentinel emitted through the string strategy, and a single dereference of
the field accessor.  (For Redact the emission is the fixed string statement,
which needs no nil safety because the value is never accessed.) -/
theorem generateLogStatement_pointer_log_nil_safe (ta : TypeAnalyzer) (field : FieldInfo)
    (receiverName : String) (hptr : field.isPointer = true)
    (hlog : (ta.AnalyzeField field).action = .ActionLog) :
    containsSubstr (ta.GenerateLogStatement (ta.AnalyzeField field) receiverName)
        ("if " ++ (receiverName ++ "." ++ field.name) ++ " == nil") ∧
      containsSubstr (ta.GenerateLogStatement (ta.AnalyzeField field) receiverName)
        ("slog.String(\"" ++ field.name ++ "\", \"null\")") ∧
      containsSubstr (ta.GenerateLogStatement (ta.AnalyzeField field) receiverName)
        ("*" ++ (receiverName ++ "." ++ field.name)) := by
  rw [analyzeField_log_eq ta field hlog]
  rcases getSlogFunction_mem ta field with hg | hg | hg | hg | hg <;>
    · simp only [TypeAnalyzer.GenerateLogStatement, TypeAnalyzer.generateNormalLogStatement,
        TypeAnalyzer.getFieldAccessor, hg, hptr]
      exact containsSubstr_ptr_shape _ _ _ _ _ _ _

/-- A nullable 32-bit integer field, logged normally. -/
def fieldCountPtr : FieldInfo := { name := "Count", type := "*int32", isPointer := true }

/-- C4 witness: the `*int32` field `Count`, analyzed to the log action,
produces an emission containing the nil check, the `null` sentinel via the
string strategy, and the dereference. -/
theorem generateLogStatement_pointer_log_nil_safe_witness :
    containsSubstr (taPw.GenerateLogStatement (taPw.AnalyzeField fieldCountPtr) "s")
        ("if " ++ ("s" ++ "." ++ fieldCountPtr.name) ++ " == nil") ∧
      containsSubstr (taPw.GenerateLogStatement (taPw.AnalyzeField fieldCountPtr) "s")
        ("slog.String(\"" ++ fieldCountPtr.name ++ "\", \"null\")") ∧
      containsSubstr (taPw.GenerateLogStatement (taPw.AnalyzeField fieldCountPtr) "s")
        ("*" ++ ("s" ++ "." ++ fieldCountPtr.name)) :=
  generateLogStatement_pointer_log_nil_safe taPw fieldCountPtr "s" (by decide) (by decide)

/-! ## Claim C8 -/

/-- The characters of a well-formed `log:"value"` token. -/
def logTokenOf (v : List Char) : List Char :=
  'l' :: 'o' :: 'g' :: ':' :: '"' :: (v ++ ['"'])

/-- Join tokens with single spaces (inverse of splitting on spaces). -/
def joinSpace : List (List Char) → List Char
  | [] => []
  | [t] => t
  | t :: t2 :: ts => t ++ ' ' :: joinSpace (t2 :: ts)

/-- Build a backtick-delimited struct-tag string from its tokens. -/
def mkTagStr (ts : List (List Char)) : String :=
  String.mk (backtickChar :: (joinSpace ts ++ [backtickChar]))

theorem splitOnSpaceChar_cons (c : Char) (cs : List Char) :
    splitOnSpaceChar (c :: cs) =
      match splitOnSpaceChar cs with
      | [] => [[]]
      | t :: ts => if c = ' ' then [] :: t :: ts else (c :: t) :: ts := rfl

theorem splitOnSpaceChar_ne_nil (s : List Char) : splitOnSpaceChar s ≠ [] := by
  cases s with
  | nil => simp [splitOnSpaceChar]
  | cons c cs =>
    rw [splitOnSpaceChar_cons]
    rcases splitOnSpaceChar cs with _ | ⟨t, ts⟩
    · simp
    · split_ifs <;> simp

theorem splitOnSpaceChar_no_space (t : List Char) (h : ' ' ∉ t) :
    splitOnSpaceChar t = [t] := by
  induction t with
  | nil => rfl
  | cons c cs ih =>
    have hc : ¬(c = ' ') := fun he => h (he ▸ List.mem_cons_self c cs)
    have hcs : ' ' ∉ cs := fun hm => h (List.mem_cons_of_mem c hm)
    rw [splitOnSpaceChar_cons, ih hcs]
    simp [hc]

theorem splitOnSpaceChar_append (t r : List Char) (h : ' ' ∉ t) :
    splitOnSpaceChar (t ++ ' ' :: r) = t :: splitOnSpaceChar r := by
  induction t with
  | nil =>
    show splitOnSpaceChar (' ' :: r) = [] :: splitOnSpaceChar r
    rw [splitOnSpaceChar_cons]
    rcases he : splitOnSpaceChar r with _ | ⟨t0, ts0⟩
    · exact absurd he (splitOnSpaceChar_ne_nil r)
    · simp
  | cons c cs ih =>
    have hc : ¬(c = ' ') := fun heq => h (heq ▸ List.mem_cons_self c cs)
    have hcs : ' ' ∉ cs := fun hm => h (List.mem_cons_of_mem c hm)
    show splitOnSpaceChar (c :: (cs ++ ' ' :: r)) = (c :: cs) :: splitOnSpaceChar r
    rw [splitOnSpaceChar_cons, ih hcs]
    simp [hc]

theorem splitOnSpaceChar_joinSpace (ts : List (List Char)) (hne : ts ≠ [])
    (h : ∀ t ∈ ts, ' ' ∉ t) : splitOnSpaceChar (joinSpace ts) = ts := by
  induction ts with
  | nil => exact absurd rfl hne
  | cons t ts ih =>
    cases ts with
    | nil => exact splitOnSpaceChar_no_space t (h t (List.mem_cons_self t []))
    | cons t2 ts2 =>
      show splitOnSpaceChar (t ++ ' ' :: joinSpace (t2 :: ts2)) = t :: t2 :: ts2
      rw [splitOnSpaceChar_append t _ (h t (List.mem_cons_self t _))]
      rw [ih (List.cons_ne_nil t2 ts2) (fun x hx => h x (List.mem_cons_of_mem t hx))]

theorem stripBackticksChars_wrap (inner : List Char) :
    stripBackticksChars (backtickChar :: (inner ++ [backtickChar])) = inner := by
  unfold stripBackticksChars
  rw [if_pos]
  · show (inner ++ [backtickChar]).dropLast = inner
    exact List.dropLast_concat ..
  · refine ⟨by simp, rfl, ?_⟩
    rw [show backtickChar :: (inner ++ [backtickChar]) =
      (backtickChar :: inner) ++ [backtickChar] from rfl]
    exact List.getLast?_concat _

theorem logTokenValue_not_log (p : List Char)
    (h : "log:".toList.isPrefixOf p = false) : logTokenValue p = none := by
  unfold logTokenValue
  rw [if_neg]
  rw [h]
  exact Bool.false_ne_true

theorem logTokenValue_logTokenOf (v : List Char) :
    logTokenValue (logTokenOf v) = some v := by
  unfold logTokenValue logTokenOf
  rw [if_pos ?hpre]
  case hpre =>
    rw [List.isPrefixOf_iff_prefix]
    exact ⟨'"' :: (v ++ ['"']), rfl⟩
  rw [show firstIdxOf ':' ('l' :: 'o' :: 'g' :: ':' :: '"' :: (v ++ ['"'])) = some 3 from rfl]
  show (if 3 + 1 < ('l' :: 'o' :: 'g' :: ':' :: '"' :: (v ++ ['"'])).length then
      let value := List.drop (3 + 1) ('l' :: 'o' :: 'g' :: ':' :: '"' :: (v ++ ['"']))
      if 2 ≤ value.length ∧ value.head? = some '"' ∧ value.getLast? = some '"' then
        some ((List.drop 1 value).dropLast)
      else none
    else none) = some v
  rw [if_pos (by simp only [List.length_cons, List.length_append]; omega)]
  show (if 2 ≤ ('"' :: (v ++ ['"'])).length ∧ ('"' :: (v ++ ['"'])).head? = some '"' ∧
      ('"' :: (v ++ ['"'])).getLast? = some '"' then
      some ((List.drop 1 ('"' :: (v ++ ['"']))).dropLast)
    else none) = some v
  rw [if_pos ?hval]
  case hval =>
    refine ⟨by simp, rfl, ?_⟩
    rw [show ('"' : Char) :: (v ++ ['"']) = ('"' :: v) ++ ['"'] from rfl]
    exact List.getLast?_concat _
  show some ((v ++ ['"']).dropLast) = some v
  rw [List.dropLast_concat]

theorem scanLogParts_cons (p : List Char) (ps : List (List Char)) :
    scanLogParts (p :: ps) =
      match logTokenValue p with
      | some v => v
      | none => scanLogParts ps := rfl

theorem scanLogParts_append_none (pre rest : List (List Char))
    (h : ∀ p ∈ pre, logTokenValue p = none) :
    scanLogParts (pre ++ rest) = scanLogParts rest := by
  induction pre with
  | nil => rfl
  | cons p ps ih =>
    show scanLogParts (p :: (ps ++ rest)) = scanLogParts rest
    rw [scanLogParts_cons, h p (List.mem_cons_self p ps)]
    exact ih (fun x hx => h x (List.mem_cons_of_mem p hx))

theorem scanLogParts_none (ps : List (List Char)) (h : ∀ p ∈ ps, logTokenValue p = none) :
    scanLogParts ps = [] := by
  have := scanLogParts_append_none ps [] h
  simpa using this

/-- C8: log-directive extraction returns the quoted value of the first
space-separated token keyed `log:` verbatim — regardless of its position
among other tokens — and returns the empty string when no token carries the
`log:` key (so also when the annotation is empty or absent). -/
theorem extractLogTag_spec :
    (∀ (pre post : List (List Char)) (v : List Char),
      (∀ t ∈ pre, ' ' ∉ t ∧ "log:".toList.isPrefixOf t = false) →
      (∀ t ∈ post, ' ' ∉ t) → ' ' ∉ v →
      extractLogTag (mkTagStr (pre ++ logTokenOf v :: post)) = String.mk v) ∧
    (∀ tagValue : String,
      (∀ part ∈ splitOnSpaceChar (stripBackticksChars tagValue.toList),
        "log:".toList.isPrefixOf part = false) →
      extractLogTag tagValue = "") := by
  constructor
  · intro pre post v hpre hpost hv
    unfold extractLogTag mkTagStr
    rw [show (String.mk (backtickChar :: (joinSpace (pre ++ logTokenOf v :: post) ++
      [backtickChar]))).toList = backtickChar :: (joinSpace (pre ++ logTokenOf v :: post) ++
      [backtickChar]) from rfl]
    rw [stripBackticksChars_wrap]
    rw [splitOnSpaceChar_joinSpace _ (by simp) ?hsp]
    case hsp =>
      intro t ht
      rcases List.mem_append.mp ht with h1 | h2
      · exact (hpre t h1).1
      · rcases List.mem_cons.mp h2 with rfl | h3
        · intro hsp
          unfold logTokenOf at hsp
          simp at hsp
          exact hv hsp
        · exact hpost t h3
    rw [scanLogParts_append_none _ _ (fun p hp => logTokenValue_not_log p (hpre p hp).2)]
    rw [scanLogParts_cons, logTokenValue_logTokenOf]
  · intro tagValue h
    unfold extractLogTag
    rw [scanLogParts_none _ (fun p hp => logTokenValue_not_log p (h p hp))]

/-- The token characters of `json:"name"`. -/
def jsonTokenChars : List Char := "json:\"name\"".toList

/-- C8 witness: the annotation `json:"name" log:"redact"` extracts `redact`,
as does `log:"redact" json:"name"` (position-independent), an empty quoted
value extracts the empty string, and a `log:`-free annotation and the empty
annotation extract the empty string. -/
theorem extractLogTag_spec_witness :
    extractLogTag (mkTagStr [jsonTokenChars, logTokenOf "redact".toList]) = "redact" ∧
      extractLogTag (mkTagStr [logTokenOf "redact".toList, jsonTokenChars]) = "redact" ∧
      extractLogTag (mkTagStr [logTokenOf []]) = "" ∧
      extractLogTag "`json:\"name\"`" = "" ∧
      extractLogTag "" = "" :=
  ⟨extractLogTag_spec.1 [jsonTokenChars] [] "redact".toList (by decide) (by decide) (by decide),
    extractLogTag_spec.1 [] [jsonTokenChars] "redact".toList (by decide) (by decide) (by decide),
    extractLogTag_spec.1 [] [] [] (by decide) (by decide) (by decide),
    extractLogTag_spec.2 "`json:\"name\"`" (by decide),
    extractLogTag_spec.2 "" (by decide)⟩

end Oak
